import Mathlib

/-!
Verification of the VeriBond semantic-agent core: a shallow embedding of the
relational store (`semantic_agent/store.py`), the relation-discovery engine
(`semantic_agent/pipeline/relations.py`) and the evaluation engine
(`semantic_agent/pipeline/evaluate.py`), with theorems about the persistence,
failure-isolation, deduplication and accuracy-aggregation behaviour.

Modelling conventions:
- SQLite tables are lists of row records inside a `DB` value; SQL `DELETE` and
  `INSERT` become list filtering and appending.  Row order models insertion
  order (the code never relies on any other order).
- Python `float` is modelled as `ℚ`: the code only compares confidence scores
  and formats short decimal constants, operations on which `ℚ` models exactly.
- The LLM collaborator and the store file system are external; they enter the
  model as explicit parameters (an oracle for the per-cluster LLM outcome, a
  predicate saying which per-cluster store writes fail).
- The thread pool of `run_discover_relations` processes clusters concurrently
  and handles completions in completion order; the model folds over the task
  list in submission order.  All theorems proved here are order-independent
  (membership and per-cluster row sets), so this choice is harmless.
-/

namespace VeriBond

/-- Resolved outcome of a binary market; `models/market.py` has
`ResolvedOutcome = Literal["YES", "NO"]` (unset is `Option.none` here). -/
inductive ResolvedOutcome where
  | yes
  | no
deriving DecidableEq

/-- Market row (`models/market.py` class `Market` / the `markets` table).
Only the fields read by the verified operations are carried: `id` (primary
key), `question`, `resolved_outcome` and `is_binary`; the remaining columns
(description, timestamps, duration, tags, slug, source) are never read by the
store-replacement, discovery or evaluation code verified here. -/
structure Market where
  id : String
  question : String
  resolved_outcome : Option ResolvedOutcome
  is_binary : Bool
deriving DecidableEq

/-- Cluster as reconstructed by `store.read_clusters` (`models/market.py`
class `Cluster`). -/
structure Cluster where
  cluster_id : String
  market_ids : List String
  category : String
  label_rationale : Option String
deriving DecidableEq

/-- Predicted relation between two markets (`models/market.py` class
`MarketRelation`). -/
structure MarketRelation where
  question_i : String
  question_j : String
  market_id_i : String
  market_id_j : String
  is_same_outcome : Bool
  confidence_score : ℚ
  rationale : String
deriving DecidableEq

/-- Row of the `clusters` table (`store.init_schema`). -/
structure ClusterRow where
  cluster_id : String
  category : String
  label_rationale : String
deriving DecidableEq

/-- Row of the `relations` table (`store.init_schema`); `is_same_outcome` is
stored as the integer 0/1 image of the boolean. -/
structure RelRow where
  cluster_id : String
  market_id_i : String
  market_id_j : String
  question_i : String
  question_j : String
  is_same_outcome : Bool
  confidence_score : ℚ
  rationale : String
deriving DecidableEq

/-- The SQLite database state: the four tables created by `store.init_schema`.
`market_clusters` rows are `(market_id, cluster_id)` pairs. -/
structure DB where
  markets : List Market
  clusters : List ClusterRow
  market_clusters : List (String × String)
  relations : List RelRow
deriving DecidableEq

/-- store.clear_derived_data: `DELETE FROM relations; DELETE FROM
market_clusters; DELETE FROM clusters` — the markets table is not touched. -/
def clear_derived_data (db : DB) : DB :=
  { db with relations := [], market_clusters := [], clusters := [] }

/-- One `INSERT OR REPLACE INTO markets` by primary key `id`: the existing row
with the same id (if any) is deleted and the new row appended. -/
def upsertMarket (rows : List Market) (m : Market) : List Market :=
  (rows.filter (fun x => decide (x.id ≠ m.id))) ++ [m]

/-- store.write_markets: empty input returns immediately (after a warning)
without touching the store; otherwise each market is upserted by id. -/
def write_markets (db : DB) (markets : List Market) : DB :=
  if markets.isEmpty then db
  else { db with markets := markets.foldl upsertMarket db.markets }

/-- One `INSERT OR REPLACE INTO market_clusters` by primary key `market_id`. -/
def upsertAssignment (rows : List (String × String)) (market_id cluster_id : String) :
    List (String × String) :=
  (rows.filter (fun a => decide (a.1 ≠ market_id))) ++ [(market_id, cluster_id)]

/-- store.write_clusters: empty input returns immediately without touching the
store; otherwise `DELETE FROM market_clusters; DELETE FROM clusters` and then
insert each cluster row and its member assignments. -/
def write_clusters (db : DB) (clusters : List Cluster) : DB :=
  if clusters.isEmpty then db
  else
    let db0 := { db with market_clusters := [], clusters := [] }
    clusters.foldl (fun acc c =>
      { acc with
        clusters := (acc.clusters.filter (fun r => decide (r.cluster_id ≠ c.cluster_id))) ++
          [⟨c.cluster_id, c.category, c.label_rationale.getD ""⟩]
        market_clusters := c.market_ids.foldl
          (fun rows mid => upsertAssignment rows mid c.cluster_id) acc.market_clusters }) db0

/-- store.read_clusters: rebuild each cluster from its row and the assignment
rows carrying its id; an empty stored category decodes to "other" and an empty
rationale to none, exactly as in the source. -/
def read_clusters (db : DB) : List Cluster :=
  db.clusters.map (fun r =>
    { cluster_id := r.cluster_id
      market_ids := (db.market_clusters.filter (fun a => decide (a.2 = r.cluster_id))).map
        (fun a => a.1)
      category := if r.category = "" then "other" else r.category
      label_rationale := if r.label_rationale = "" then none else some r.label_rationale })

/-- store.read_markets: `SELECT * FROM markets` (the row-decoding rules of the
source concern columns not carried by this model). -/
def read_markets (db : DB) : List Market :=
  db.markets

/-- Key used by the deduplication in `store.write_relations_for_cluster`:
the pair `(market_id_i, market_id_j)`. -/
def relKey (r : MarketRelation) : String × String :=
  (r.market_id_i, r.market_id_j)

/-- Loop body of the `seen`-dict deduplication in
`store.write_relations_for_cluster`: keep a relation only if its key was not
seen before; `seen` accumulates the keys already kept.  `list(seen.values())`
in the source yields exactly the kept relations in first-occurrence order. -/
def dedupAux : List MarketRelation → List (String × String) → List MarketRelation
  | [], _ => []
  | r :: rs, seen =>
    if relKey r ∈ seen then dedupAux rs seen
    else r :: dedupAux rs (relKey r :: seen)

/-- Deduplication of a relation batch by `(market_id_i, market_id_j)`,
keeping the first occurrence (`relations_deduped` in the source). -/
def dedupRelations (relations : List MarketRelation) : List MarketRelation :=
  dedupAux relations []

/-- Row built for the `INSERT INTO relations` in
`store.write_relations_for_cluster`. -/
def relRowOf (cluster_id : String) (r : MarketRelation) : RelRow :=
  ⟨cluster_id, r.market_id_i, r.market_id_j, r.question_i, r.question_j,
   r.is_same_outcome, r.confidence_score, r.rationale⟩

/-- store.write_relations_for_cluster: `DELETE FROM relations WHERE cluster_id
= ?`, then (for a non-empty batch) insert the deduplicated batch.  The Python
function returns None; the number of rows written appears only in a log
line. -/
def write_relations_for_cluster (db : DB) (cluster_id : String)
    (relations : List MarketRelation) : DB :=
  if relations.isEmpty then
    { db with relations :=
        db.relations.filter (fun row => decide (row.cluster_id ≠ cluster_id)) }
  else
    { db with relations :=
        db.relations.filter (fun row => decide (row.cluster_id ≠ cluster_id))
          ++ (dedupRelations relations).map (relRowOf cluster_id) }

/-- store.get_cluster_ids_with_relations: `SELECT DISTINCT cluster_id FROM
relations`, a set used only through membership. -/
def get_cluster_ids_with_relations (db : DB) : List String :=
  (db.relations.map (fun r => r.cluster_id)).dedup

/-- store.read_relations: every relations row paired with its cluster id,
rebuilt as a `MarketRelation`. -/
def read_relations (db : DB) : List (String × MarketRelation) :=
  db.relations.map (fun row =>
    (row.cluster_id,
     ⟨row.question_i, row.question_j, row.market_id_i, row.market_id_j,
      row.is_same_outcome, row.confidence_score, row.rationale⟩))

/-- Outcome of the single LLM call made by
`relations.discover_relations_for_cluster` for one cluster, as seen by the
code after the call: either the call raised an exception, or it produced a
response whose parse/validation result is `some` validated relation list
(`MarketRelationList.relations`) or `none` (the body was not a JSON object,
or `MarketRelationList.model_validate` raised). -/
inductive LLMOutcome where
  | callError
  | response (parsed : Option (List MarketRelation))
deriving DecidableEq

/-- relations.discover_relations_for_cluster, with the LLM call abstracted to
its `LLMOutcome`: fewer than two markets short-circuits to an empty list
before any call; a raised call propagates (`Except.error`); an unparseable or
invalid response returns an empty list; a validated list is truncated to
`max_relations` when longer. -/
def discover_relations_for_cluster (markets : List Market) (llm : LLMOutcome)
    (max_relations : Nat) : Except Unit (List MarketRelation) :=
  if markets.length < 2 then .ok []
  else
    match llm with
    | .callError => .error ()
    | .response none => .ok []
    | .response (some rels) =>
        .ok (if rels.length > max_relations then rels.take max_relations else rels)

/-- relations._process_one_cluster: run discovery for one cluster inside a
worker thread, catching any exception; returns the cluster id with the
relation list, or with `none` on error. -/
def _process_one_cluster (c : Cluster) (m_list : List Market) (llm : LLMOutcome)
    (max_relations : Nat) : String × Option (List MarketRelation) :=
  match discover_relations_for_cluster m_list llm max_relations with
  | .ok relations => (c.cluster_id, some relations)
  | .error _ => (c.cluster_id, none)

/-- Configuration consumed by `relations.run_discover_relations`; in the
source these come from the keyword arguments with `Settings` fallbacks
(`relations_max_clusters` etc.), and `openai_api_key` is the credential whose
absence (modelled as the empty string, Python falsy) raises before any work
starts. -/
structure RunConfig where
  max_clusters : Nat
  max_markets_per_cluster : Nat
  max_relations_per_cluster : Nat
  only_labeled : Bool
  only_resolved : Bool
  skip_clusters_with_relations : Bool
  openai_api_key : String
deriving DecidableEq

/-- Mutable state of the completion loop in `run_discover_relations`: the
store, the `results` mapping (an insertion-ordered dict `{cluster_id:
num_relations}`) and the `failed_clusters` list. -/
structure RunState where
  db : DB
  results : List (String × Nat)
  failed_clusters : List String
deriving DecidableEq

/-- The dict `markets_by_id = {m.id: m for m in all_markets}` with `.get`:
a later market with the same id overwrites an earlier one. -/
def markets_by_id (all_markets : List Market) (mid : String) : Option Market :=
  all_markets.foldl (fun acc m => if m.id = mid then some m else acc) none

/-- The per-cluster market-list loop of `run_discover_relations`: look up each
member id, drop missing markets, and under `only_resolved` drop markets whose
resolved outcome is not YES/NO. -/
def m_list_for (all_markets : List Market) (only_resolved : Bool) (c : Cluster) :
    List Market :=
  (c.market_ids.filterMap (markets_by_id all_markets)).filter
    (fun m => !only_resolved || m.resolved_outcome.isSome)

/-- Task construction in `run_discover_relations`: filter clusters to labeled
ones (non-empty category other than "other") when `only_labeled`, drop
clusters already having relations when `skip_clusters_with_relations` (one
set-difference against `get_cluster_ids_with_relations`, computed before
dispatch), truncate to `max_clusters`, then keep each cluster with its market
list when at least two markets remain, truncating oversized lists to
`max_markets_per_cluster`. -/
def build_tasks (db : DB) (cfg : RunConfig) : List (Cluster × List Market) :=
  let clusters := read_clusters db
  let clusters := if cfg.only_labeled then
      clusters.filter (fun c => decide (c.category ≠ "") && decide (c.category ≠ "other"))
    else clusters
  let clusters := if cfg.skip_clusters_with_relations then
      clusters.filter (fun c => decide (c.cluster_id ∉ get_cluster_ids_with_relations db))
    else clusters
  let clusters := clusters.take cfg.max_clusters
  let all_markets := read_markets db
  clusters.filterMap (fun c =>
    let ml := m_list_for all_markets cfg.only_resolved c
    if ml.length < 2 then none
    else some (c, if ml.length > cfg.max_markets_per_cluster then
      ml.take cfg.max_markets_per_cluster else ml))

/-- Completion handling for one finished task in `run_discover_relations`:
a `none` discovery result records the cluster as failed; otherwise the
relations are persisted (a store-write exception, modelled by `write_fails`,
records the cluster as failed and leaves the mapping alone) and the mapping
gains `results[cid] = len(relations)`. -/
def run_step (oracle : String → LLMOutcome) (write_fails : String → Bool)
    (max_relations_per_cluster : Nat) (st : RunState) (task : Cluster × List Market) :
    RunState :=
  match (_process_one_cluster task.1 task.2 (oracle task.1.cluster_id)
      max_relations_per_cluster).2 with
  | none => { st with failed_clusters := st.failed_clusters ++ [task.1.cluster_id] }
  | some relations =>
      if write_fails task.1.cluster_id then
        { st with failed_clusters := st.failed_clusters ++ [task.1.cluster_id] }
      else
        { st with
          db := write_relations_for_cluster st.db task.1.cluster_id relations
          results := st.results ++ [(task.1.cluster_id, relations.length)] }

/-- Final state of the completion loop of `run_discover_relations` over all
tasks. -/
def run_result (db : DB) (cfg : RunConfig) (oracle : String → LLMOutcome)
    (write_fails : String → Bool) : RunState :=
  (build_tasks db cfg).foldl (run_step oracle write_fails cfg.max_relations_per_cluster)
    ⟨db, [], []⟩

/-- relations.run_discover_relations: raises (`Except.error`) when the OpenAI
key is missing; returns an empty mapping when no clusters exist; otherwise
processes every task and returns the final state (the Python function returns
only `results`; the model also exposes the final store and the
`failed_clusters` list, which the source keeps and logs). -/
def run_discover_relations (db : DB) (cfg : RunConfig) (oracle : String → LLMOutcome)
    (write_fails : String → Bool) : Except String RunState :=
  if cfg.openai_api_key = "" then
    .error "Missing VERIBOND_OPENAI_API_KEY (or openai_api_key in .env)"
  else if (read_clusters db).isEmpty then .ok ⟨db, [], []⟩
  else .ok (run_result db cfg oracle write_fails)

/-- evaluate.EvalBucket: aggregate count and correct-count for one bucket. -/
structure EvalBucket where
  n : Nat
  correct : Nat
deriving DecidableEq

/-- EvalBucket.accuracy: `self.correct / self.n if self.n else 0.0`. -/
def EvalBucket.accuracy (b : EvalBucket) : ℚ :=
  if b.n = 0 then 0 else (b.correct : ℚ) / (b.n : ℚ)

/-- evaluate.EvalResult: totals plus the per-cluster and per-confidence-bucket
breakdowns; the two dicts are modelled as insertion-ordered association
lists. -/
structure EvalResult where
  total_relations : Nat
  total_evaluable : Nat
  total_correct : Nat
  by_cluster : List (String × EvalBucket)
  by_confidence_bucket : List (String × EvalBucket)
deriving DecidableEq

/-- EvalResult.accuracy: `total_correct / total_evaluable if total_evaluable
else 0.0`. -/
def EvalResult.accuracy (r : EvalResult) : ℚ :=
  if r.total_evaluable = 0 then 0 else (r.total_correct : ℚ) / (r.total_evaluable : ℚ)

/-- Fractional decimal digits of a nonnegative rational, most significant
first, up to 17 digits (enough for every float the code formats).  Used to
model Python's `str()` on floats that are exact short decimals. -/
def decimalDigits : Nat → ℚ → List ℤ
  | 0, _ => []
  | fuel + 1, q =>
    if q = 0 then []
    else ⌊q * 10⌋ :: decimalDigits fuel (q * 10 - (⌊q * 10⌋ : ℤ))

/-- Model of Python `str()` (as used by f-string interpolation) on the
nonnegative float constants this code formats: such a float is an exact short
decimal, and CPython renders it as its shortest decimal with at least one
fractional digit, e.g. `str(0.5) = "0.5"` and `str(0.0) = "0.0"`. -/
def pyFloatStr (q : ℚ) : String :=
  let ds := decimalDigits 17 (q - (⌊q⌋ : ℤ))
  toString ⌊q⌋ ++ "." ++
    (if ds.isEmpty then "0" else String.mk (ds.map (fun d => Nat.digitChar d.toNat)))

/-- The `for i, b in enumerate(sorted_b)` loop of
`evaluate._confidence_bucket_label` together with its fall-through return:
`low` carries `sorted_b[i-1] if i else 0.0`; the first boundary with
`score < b` yields the range label, exhausting the list yields the
greater-equal label of the last boundary. -/
def bucketLabelLoop (score low : ℚ) : List ℚ → String
  | [] => "all"
  | [b] =>
    if score < b then pyFloatStr low ++ "-" ++ pyFloatStr b
    else ">=" ++ pyFloatStr b
  | b :: b2 :: rest =>
    if score < b then pyFloatStr low ++ "-" ++ pyFloatStr b
    else bucketLabelLoop score b (b2 :: rest)

/-- evaluate._confidence_bucket_label: "all" for an empty boundary list,
otherwise the loop over the sorted boundaries starting from low 0.0. -/
def _confidence_bucket_label (score : ℚ) (boundaries : List ℚ) : String :=
  if boundaries.isEmpty then "all"
  else bucketLabelLoop score 0 (boundaries.mergeSort (fun a b => decide (a ≤ b)))

/-- The dict `outcome_by_id = {m.id: m.resolved_outcome for m in markets if
m.resolved_outcome is not None}` with `.get`: later markets with the same id
overwrite earlier ones; markets with unset outcome contribute nothing. -/
def outcome_by_id (markets : List Market) (mid : String) : Option ResolvedOutcome :=
  markets.foldl (fun acc m =>
    match m.resolved_outcome with
    | some o => if m.id = mid then some o else acc
    | none => acc) none

/-- Dict update `result.by_...[key]`: create the bucket on first use (at the
end, preserving insertion order), then `b.n += 1` and `b.correct += 1` when
the prediction was correct. -/
def bumpBucket (correct : Bool) (key : String) :
    List (String × EvalBucket) → List (String × EvalBucket)
  | [] => [(key, ⟨1, if correct then 1 else 0⟩)]
  | (k, b) :: rest =>
    if k = key then (k, ⟨b.n + 1, b.correct + if correct then 1 else 0⟩) :: rest
    else (k, b) :: bumpBucket correct key rest

/-- Loop body of `run_evaluate_relations` for one `(cluster_id, rel)` pair:
skip when the confidence is below the minimum or either referenced market has
no resolved outcome; otherwise count it as evaluable, score it against
`ground_truth_same = (o_i == o_j)`, and update both breakdowns. -/
def eval_step (min_conf : ℚ) (buckets : List ℚ)
    (outcome : String → Option ResolvedOutcome) (r : EvalResult)
    (p : String × MarketRelation) : EvalResult :=
  if p.2.confidence_score < min_conf then r
  else
    match outcome p.2.market_id_i, outcome p.2.market_id_j with
    | some o_i, some o_j =>
        let ground_truth_same : Bool := decide (o_i = o_j)
        let correct : Bool := p.2.is_same_outcome == ground_truth_same
        { total_relations := r.total_relations
          total_evaluable := r.total_evaluable + 1
          total_correct := r.total_correct + if correct then 1 else 0
          by_cluster := bumpBucket correct p.1 r.by_cluster
          by_confidence_bucket := bumpBucket correct
            (_confidence_bucket_label p.2.confidence_score buckets) r.by_confidence_bucket }
    | _, _ => r

/-- evaluate.run_evaluate_relations with the two settings as parameters
(`settings.eval_min_confidence` and `settings.eval_confidence_buckets`); the
Python `buckets = settings.eval_confidence_buckets or [0.5, 0.7, 0.9]`
replaces a falsy configured value — None or the empty list, both modelled by
the empty list — with the default boundaries. -/
def run_evaluate_relations (db : DB) (eval_min_confidence : ℚ)
    (eval_confidence_buckets : List ℚ) : EvalResult :=
  let buckets := if eval_confidence_buckets.isEmpty then
      [(0.5 : ℚ), 0.7, 0.9] else eval_confidence_buckets
  let relations_with_cluster := read_relations db
  let markets := read_markets db
  relations_with_cluster.foldl (eval_step eval_min_confidence buckets (outcome_by_id markets))
    { total_relations := relations_with_cluster.length
      total_evaluable := 0
      total_correct := 0
      by_cluster := []
      by_confidence_bucket := [] }

/-- Specification-side predicate: a stored relationship is evaluable exactly
when its confidence score is at least the configured minimum and both
referenced markets have a resolved outcome. -/
def evaluable (min_conf : ℚ) (outcome : String → Option ResolvedOutcome)
    (p : String × MarketRelation) : Bool :=
  decide (min_conf ≤ p.2.confidence_score) && (outcome p.2.market_id_i).isSome &&
    (outcome p.2.market_id_j).isSome

/-- Specification-side predicate: an evaluable relationship is scored correct
exactly when its same-outcome flag equals the ground truth
`outcome_i = outcome_j`. -/
def relCorrect (outcome : String → Option ResolvedOutcome)
    (p : String × MarketRelation) : Bool :=
  match outcome p.2.market_id_i, outcome p.2.market_id_j with
  | some o_i, some o_j => p.2.is_same_outcome == decide (o_i = o_j)
  | _, _ => false

/-- Sum of the bucket counts of a breakdown. -/
def sumN (l : List (String × EvalBucket)) : Nat :=
  (l.map (fun p => p.2.n)).sum

/-- Sum of the bucket correct-counts of a breakdown. -/
def sumCorrect (l : List (String × EvalBucket)) : Nat :=
  (l.map (fun p => p.2.correct)).sum

/-! Helper lemmas about the deduplication of relation batches. -/

theorem dedupAux_sublist (rels : List MarketRelation) :
    ∀ seen, List.Sublist (dedupAux rels seen) rels := by
  induction rels with
  | nil => intro seen; simp [dedupAux]
  | cons r rs ih =>
    intro seen
    rw [dedupAux]
    by_cases h : relKey r ∈ seen
    · simp only [if_pos h]
      exact (ih seen).cons r
    · simp only [if_neg h]
      exact (ih (relKey r :: seen)).cons₂ r

theorem dedupAux_keys (rels : List MarketRelation) :
    ∀ seen, ((dedupAux rels seen).map relKey).Nodup ∧
      ∀ k ∈ (dedupAux rels seen).map relKey, k ∉ seen := by
  induction rels with
  | nil => intro seen; simp [dedupAux]
  | cons r rs ih =>
    intro seen
    rw [dedupAux]
    by_cases h : relKey r ∈ seen
    · simp only [if_pos h]
      exact ih seen
    · simp only [if_neg h, List.map_cons, List.nodup_cons]
      refine ⟨⟨fun hmem => ?_, (ih (relKey r :: seen)).1⟩, ?_⟩
      · exact (ih (relKey r :: seen)).2 (relKey r) hmem (List.mem_cons_self _ _)
      · intro k hk
        rcases List.mem_cons.mp hk with hk | hk
        · exact hk ▸ h
        · intro hks
          exact (ih (relKey r :: seen)).2 k hk (List.mem_cons_of_mem _ hks)

theorem dedupAux_find (rels : List MarketRelation) :
    ∀ seen k, k ∉ seen →
      (dedupAux rels seen).find? (fun r => decide (relKey r = k))
        = rels.find? (fun r => decide (relKey r = k)) := by
  induction rels with
  | nil => intro seen k _; rfl
  | cons r rs ih =>
    intro seen k hk
    rw [dedupAux]
    by_cases h : relKey r ∈ seen
    · have hne : ¬(relKey r = k) := fun he => hk (he ▸ h)
      rw [if_pos h, List.find?_cons_of_neg _ (by simp [hne])]
      exact ih seen k hk
    · rw [if_neg h]
      by_cases hrk : relKey r = k
      · rw [List.find?_cons_of_pos _ (by simp [hrk]),
          List.find?_cons_of_pos _ (by simp [hrk])]
      · have hk2 : k ∉ relKey r :: seen := by
          intro hmem
          rcases List.mem_cons.mp hmem with hm | hm
          · exact hrk hm.symm
          · exact hk hm
        rw [List.find?_cons_of_neg _ (by simp [hrk]),
          List.find?_cons_of_neg _ (by simp [hrk])]
        exact ih (relKey r :: seen) k hk2

/-! Helper lemmas about per-cluster relation replacement in the store. -/

theorem filter_map_relRowOf_same (cid : String) (l : List MarketRelation) :
    (l.map (relRowOf cid)).filter (fun row => decide (row.cluster_id = cid))
      = l.map (relRowOf cid) := by
  induction l with
  | nil => rfl
  | cons r rs ih => simp [relRowOf, ih]

theorem filter_map_relRowOf_other (cid g : String) (hg : g ≠ cid) (l : List MarketRelation) :
    (l.map (relRowOf cid)).filter (fun row => decide (row.cluster_id = g)) = [] := by
  induction l with
  | nil => rfl
  | cons r rs ih => simp [relRowOf, ih, (Ne.symm hg : cid ≠ g)]

theorem filter_map_relRowOf_ne (cid : String) (l : List MarketRelation) :
    (l.map (relRowOf cid)).filter (fun row => decide (row.cluster_id ≠ cid)) = [] := by
  induction l with
  | nil => rfl
  | cons r rs ih => simp [relRowOf, ih]

theorem filter_eq_after_delete (cid g : String) (hg : g ≠ cid) (rows : List RelRow) :
    (rows.filter (fun row => decide (row.cluster_id ≠ cid))).filter
        (fun row => decide (row.cluster_id = g))
      = rows.filter (fun row => decide (row.cluster_id = g)) := by
  induction rows with
  | nil => rfl
  | cons r rs ih =>
    by_cases h2 : r.cluster_id = cid
    · have hng : ¬(r.cluster_id = g) := by rw [h2]; exact Ne.symm hg
      rw [List.filter_cons, List.filter_cons, if_neg (by simp [h2]), if_neg (by simp [hng])]
      exact ih
    · by_cases h3 : r.cluster_id = g
      · rw [List.filter_cons, if_pos (by simp [h2]), List.filter_cons,
          if_pos (by simp [h3]), List.filter_cons, if_pos (by simp [h3]), ih]
      · rw [List.filter_cons, if_pos (by simp [h2]), List.filter_cons,
          if_neg (by simp [h3]), List.filter_cons, if_neg (by simp [h3]), ih]

theorem filter_eq_of_deleted (cid : String) (rows : List RelRow) :
    (rows.filter (fun row => decide (row.cluster_id ≠ cid))).filter
        (fun row => decide (row.cluster_id = cid)) = [] := by
  induction rows with
  | nil => rfl
  | cons r rs ih =>
    by_cases h : r.cluster_id = cid <;> simp [h, ih]

theorem filter_ne_idem (cid : String) (rows : List RelRow) :
    (rows.filter (fun row => decide (row.cluster_id ≠ cid))).filter
        (fun row => decide (row.cluster_id ≠ cid))
      = rows.filter (fun row => decide (row.cluster_id ≠ cid)) := by
  induction rows with
  | nil => rfl
  | cons r rs ih =>
    by_cases h : r.cluster_id = cid <;> simp [h, ih]

theorem write_relations_filter_eq (db : DB) (cid : String) (rels : List MarketRelation) :
    (write_relations_for_cluster db cid rels).relations.filter
        (fun row => decide (row.cluster_id = cid))
      = (dedupRelations rels).map (relRowOf cid) := by
  by_cases h : rels.isEmpty
  · have hnil : rels = [] := List.isEmpty_iff.mp h
    subst hnil
    exact filter_eq_of_deleted cid db.relations
  · unfold write_relations_for_cluster
    rw [if_neg h]
    simp only [List.filter_append]
    rw [filter_eq_of_deleted, filter_map_relRowOf_same, List.nil_append]

theorem write_relations_filter_ne (db : DB) (cid : String) (rels : List MarketRelation) :
    (write_relations_for_cluster db cid rels).relations.filter
        (fun row => decide (row.cluster_id ≠ cid))
      = db.relations.filter (fun row => decide (row.cluster_id ≠ cid)) := by
  by_cases h : rels.isEmpty
  · have hnil : rels = [] := List.isEmpty_iff.mp h
    subst hnil
    exact filter_ne_idem cid db.relations
  · unfold write_relations_for_cluster
    rw [if_neg h]
    simp only [List.filter_append]
    rw [filter_ne_idem, filter_map_relRowOf_ne, List.append_nil]

theorem write_relations_other (db : DB) (cid g : String) (hg : g ≠ cid)
    (rels : List MarketRelation) :
    (write_relations_for_cluster db cid rels).relations.filter
        (fun row => decide (row.cluster_id = g))
      = db.relations.filter (fun row => decide (row.cluster_id = g)) := by
  by_cases h : rels.isEmpty
  · have hnil : rels = [] := List.isEmpty_iff.mp h
    subst hnil
    exact filter_eq_after_delete cid g hg db.relations
  · unfold write_relations_for_cluster
    rw [if_neg h]
    simp only [List.filter_append]
    rw [filter_eq_after_delete cid g hg, filter_map_relRowOf_other cid g hg,
      List.append_nil]

/-! Helper lemmas about the discovery completion loop. -/

theorem run_step_none (oracle : String → LLMOutcome) (write_fails : String → Bool)
    (maxRel : Nat) (st : RunState) (task : Cluster × List Market)
    (h : (_process_one_cluster task.1 task.2 (oracle task.1.cluster_id) maxRel).2 = none) :
    run_step oracle write_fails maxRel st task
      = { st with failed_clusters := st.failed_clusters ++ [task.1.cluster_id] } := by
  unfold run_step
  rw [h]

theorem run_step_some_fail (oracle : String → LLMOutcome) (write_fails : String → Bool)
    (maxRel : Nat) (st : RunState) (task : Cluster × List Market)
    (rels : List MarketRelation)
    (h : (_process_one_cluster task.1 task.2 (oracle task.1.cluster_id) maxRel).2 = some rels)
    (hw : write_fails task.1.cluster_id = true) :
    run_step oracle write_fails maxRel st task
      = { st with failed_clusters := st.failed_clusters ++ [task.1.cluster_id] } := by
  unfold run_step
  rw [h]
  simp [hw]

theorem run_step_some_ok (oracle : String → LLMOutcome) (write_fails : String → Bool)
    (maxRel : Nat) (st : RunState) (task : Cluster × List Market)
    (rels : List MarketRelation)
    (h : (_process_one_cluster task.1 task.2 (oracle task.1.cluster_id) maxRel).2 = some rels)
    (hw : write_fails task.1.cluster_id = false) :
    run_step oracle write_fails maxRel st task
      = { st with
          db := write_relations_for_cluster st.db task.1.cluster_id rels
          results := st.results ++ [(task.1.cluster_id, rels.length)] } := by
  unfold run_step
  rw [h]
  simp [hw]

theorem run_step_results_mono (oracle : String → LLMOutcome) (write_fails : String → Bool)
    (maxRel : Nat) (st : RunState) (task : Cluster × List Market) :
    ∀ p ∈ st.results, p ∈ (run_step oracle write_fails maxRel st task).results := by
  intro p hp
  rcases hproc : (_process_one_cluster task.1 task.2 (oracle task.1.cluster_id) maxRel).2 with
    _ | rels
  · rw [run_step_none oracle write_fails maxRel st task hproc]
    exact hp
  · rcases hw : write_fails task.1.cluster_id with _ | _
    · rw [run_step_some_ok oracle write_fails maxRel st task rels hproc hw]
      exact List.mem_append_left _ hp
    · rw [run_step_some_fail oracle write_fails maxRel st task rels hproc hw]
      exact hp

theorem run_step_failed_mono (oracle : String → LLMOutcome) (write_fails : String → Bool)
    (maxRel : Nat) (st : RunState) (task : Cluster × List Market) :
    ∀ c ∈ st.failed_clusters, c ∈ (run_step oracle write_fails maxRel st task).failed_clusters := by
  intro c hc
  rcases hproc : (_process_one_cluster task.1 task.2 (oracle task.1.cluster_id) maxRel).2 with
    _ | rels
  · rw [run_step_none oracle write_fails maxRel st task hproc]
    exact List.mem_append_left _ hc
  · rcases hw : write_fails task.1.cluster_id with _ | _
    · rw [run_step_some_ok oracle write_fails maxRel st task rels hproc hw]
      exact hc
    · rw [run_step_some_fail oracle write_fails maxRel st task rels hproc hw]
      exact List.mem_append_left _ hc

theorem foldl_run_step_results_mono (oracle : String → LLMOutcome)
    (write_fails : String → Bool) (maxRel : Nat) (tasks : List (Cluster × List Market)) :
    ∀ st p, p ∈ st.results →
      p ∈ (tasks.foldl (run_step oracle write_fails maxRel) st).results := by
  induction tasks with
  | nil => intro st p hp; exact hp
  | cons t ts ih =>
    intro st p hp
    exact ih _ p (run_step_results_mono oracle write_fails maxRel st t p hp)

theorem foldl_run_step_failed_mono (oracle : String → LLMOutcome)
    (write_fails : String → Bool) (maxRel : Nat) (tasks : List (Cluster × List Market)) :
    ∀ st c, c ∈ st.failed_clusters →
      c ∈ (tasks.foldl (run_step oracle write_fails maxRel) st).failed_clusters := by
  induction tasks with
  | nil => intro st c hc; exact hc
  | cons t ts ih =>
    intro st c hc
    exact ih _ c (run_step_failed_mono oracle write_fails maxRel st t c hc)

theorem foldl_run_step_mem_results (oracle : String → LLMOutcome)
    (write_fails : String → Bool) (maxRel : Nat) (tasks : List (Cluster × List Market)) :
    ∀ st t, t ∈ tasks →
      ∀ rels, (_process_one_cluster t.1 t.2 (oracle t.1.cluster_id) maxRel).2 = some rels →
      write_fails t.1.cluster_id = false →
      (t.1.cluster_id, rels.length) ∈
        (tasks.foldl (run_step oracle write_fails maxRel) st).results := by
  induction tasks with
  | nil => intro st t ht; exact absurd ht (List.not_mem_nil t)
  | cons t0 ts ih =>
    intro st t ht rels hproc hw
    rcases List.mem_cons.mp ht with ht | ht
    · subst ht
      rw [List.foldl_cons]
      apply foldl_run_step_results_mono
      rw [run_step_some_ok oracle write_fails maxRel st t rels hproc hw]
      exact List.mem_append_right _ (List.mem_singleton.mpr rfl)
    · rw [List.foldl_cons]
      exact ih _ t ht rels hproc hw

theorem foldl_run_step_mem_failed (oracle : String → LLMOutcome)
    (write_fails : String → Bool) (maxRel : Nat) (tasks : List (Cluster × List Market)) :
    ∀ st t, t ∈ tasks →
      ((_process_one_cluster t.1 t.2 (oracle t.1.cluster_id) maxRel).2 = none ∨
        write_fails t.1.cluster_id = true) →
      t.1.cluster_id ∈ (tasks.foldl (run_step oracle write_fails maxRel) st).failed_clusters := by
  induction tasks with
  | nil => intro st t ht; exact absurd ht (List.not_mem_nil t)
  | cons t0 ts ih =>
    intro st t ht hcase
    rcases List.mem_cons.mp ht with ht | ht
    · subst ht
      rw [List.foldl_cons]
      apply foldl_run_step_failed_mono
      rcases hcase with hproc | hw
      · rw [run_step_none oracle write_fails maxRel st t hproc]
        exact List.mem_append_right _ (List.mem_singleton.mpr rfl)
      · rcases hproc : (_process_one_cluster t.1 t.2 (oracle t.1.cluster_id) maxRel).2 with
          _ | rels
        · rw [run_step_none oracle write_fails maxRel st t hproc]
          exact List.mem_append_right _ (List.mem_singleton.mpr rfl)
        · rw [run_step_some_fail oracle write_fails maxRel st t rels hproc hw]
          exact List.mem_append_right _ (List.mem_singleton.mpr rfl)
    · rw [List.foldl_cons]
      exact ih _ t ht hcase

theorem foldl_run_step_results_source (oracle : String → LLMOutcome)
    (write_fails : String → Bool) (maxRel : Nat) (tasks : List (Cluster × List Market)) :
    ∀ st p, p ∈ (tasks.foldl (run_step oracle write_fails maxRel) st).results →
      p ∈ st.results ∨ ∃ t ∈ tasks, ∃ rels,
        (_process_one_cluster t.1 t.2 (oracle t.1.cluster_id) maxRel).2 = some rels ∧
        write_fails t.1.cluster_id = false ∧ p = (t.1.cluster_id, rels.length) := by
  induction tasks with
  | nil => intro st p hp; exact Or.inl hp
  | cons t0 ts ih =>
    intro st p hp
    rw [List.foldl_cons] at hp
    rcases ih _ p hp with hp0 | ⟨t, ht, rels, hproc, hw, hpeq⟩
    · rcases hproc : (_process_one_cluster t0.1 t0.2 (oracle t0.1.cluster_id) maxRel).2 with
        _ | rels
      · rw [run_step_none oracle write_fails maxRel st t0 hproc] at hp0
        exact Or.inl hp0
      · rcases hw : write_fails t0.1.cluster_id with _ | _
        · rw [run_step_some_ok oracle write_fails maxRel st t0 rels hproc hw] at hp0
          rcases List.mem_append.mp hp0 with hmem | hmem
          · exact Or.inl hmem
          · exact Or.inr ⟨t0, List.mem_cons_self _ _, rels, hproc, hw,
              List.mem_singleton.mp hmem⟩
        · rw [run_step_some_fail oracle write_fails maxRel st t0 rels hproc hw] at hp0
          exact Or.inl hp0
    · exact Or.inr ⟨t, List.mem_cons_of_mem _ ht, rels, hproc, hw, hpeq⟩

theorem foldl_run_step_other_cluster (oracle : String → LLMOutcome)
    (write_fails : String → Bool) (maxRel : Nat) (g : String)
    (tasks : List (Cluster × List Market)) (hg : ∀ t ∈ tasks, t.1.cluster_id ≠ g) :
    ∀ st, ((tasks.foldl (run_step oracle write_fails maxRel) st).db.relations.filter
        (fun row => decide (row.cluster_id = g)))
      = st.db.relations.filter (fun row => decide (row.cluster_id = g)) := by
  induction tasks with
  | nil => intro st; rfl
  | cons t0 ts ih =>
    intro st
    have hg0 : t0.1.cluster_id ≠ g := hg t0 (List.mem_cons_self _ _)
    have hgts : ∀ t ∈ ts, t.1.cluster_id ≠ g := fun t ht => hg t (List.mem_cons_of_mem _ ht)
    rw [List.foldl_cons, ih hgts]
    rcases hproc : (_process_one_cluster t0.1 t0.2 (oracle t0.1.cluster_id) maxRel).2 with
      _ | rels
    · rw [run_step_none oracle write_fails maxRel st t0 hproc]
    · rcases hw : write_fails t0.1.cluster_id with _ | _
      · rw [run_step_some_ok oracle write_fails maxRel st t0 rels hproc hw]
        exact write_relations_other st.db t0.1.cluster_id g (Ne.symm hg0) rels
      · rw [run_step_some_fail oracle write_fails maxRel st t0 rels hproc hw]

theorem build_tasks_of_no_clusters (db : DB) (cfg : RunConfig)
    (h : db.clusters = []) : build_tasks db cfg = [] := by
  simp [build_tasks, read_clusters, h]

theorem run_discover_relations_ok (db : DB) (cfg : RunConfig)
    (oracle : String → LLMOutcome) (write_fails : String → Bool)
    (hkey : ¬cfg.openai_api_key = "") :
    run_discover_relations db cfg oracle write_fails
      = .ok (run_result db cfg oracle write_fails) := by
  unfold run_discover_relations
  rw [if_neg hkey]
  by_cases hempty : (read_clusters db).isEmpty = true
  · rw [if_pos hempty]
    have hnil : db.clusters = [] := by
      have := List.isEmpty_iff.mp hempty
      unfold read_clusters at this
      exact List.map_eq_nil_iff.mp this
    rw [run_result, build_tasks_of_no_clusters db cfg hnil]
    rfl
  · rw [if_neg hempty]

theorem build_tasks_skip_avoids (db : DB) (cfg : RunConfig)
    (hskip : cfg.skip_clusters_with_relations = true) (g : String)
    (hg : g ∈ get_cluster_ids_with_relations db) :
    ∀ t ∈ build_tasks db cfg, t.1.cluster_id ≠ g := by
  intro t ht
  unfold build_tasks at ht
  rw [hskip] at ht
  simp only [if_true] at ht
  rcases List.mem_filterMap.mp ht with ⟨c, hc, hfc⟩
  have hcid : c.cluster_id ∉ get_cluster_ids_with_relations db := by
    have hc2 := List.mem_of_mem_take hc
    have := (List.mem_filter.mp hc2).2
    exact of_decide_eq_true this
  have ht1 : t.1 = c := by
    by_cases hlen : (m_list_for (read_markets db) cfg.only_resolved c).length < 2
    · rw [if_pos hlen] at hfc
      exact absurd hfc (Option.noConfusion)
    · rw [if_neg hlen] at hfc
      have := Option.some.inj hfc
      rw [← this]
  rw [ht1]
  intro heq
  exact hcid (heq ▸ hg)

theorem mem_cluster_ids_of_filter_ne_nil (db : DB) (g : String)
    (hg : db.relations.filter (fun row => decide (row.cluster_id = g)) ≠ []) :
    g ∈ get_cluster_ids_with_relations db := by
  rcases List.exists_mem_of_ne_nil _ hg with ⟨row, hrow⟩
  have hmem := (List.mem_filter.mp hrow).1
  have heq : row.cluster_id = g := of_decide_eq_true (List.mem_filter.mp hrow).2
  unfold get_cluster_ids_with_relations
  exact List.mem_dedup.mpr (List.mem_map.mpr ⟨row, hmem, heq⟩)

/-- Claim C1: write_relations_for_cluster (spec name
write_relationships_for_group) deletes exactly the stored relationships of
the given cluster (rows of every other cluster survive unchanged), inserts
exactly the incoming list deduplicated by the pair (market_id_i, market_id_j)
keeping the first occurrence — the deduplicated list is a subsequence of the
input with pairwise-distinct keys whose first match for every key agrees with
the input's — and a 3-element batch containing one duplicate pair persists
exactly 2 rows for the cluster. -/
theorem C1_write_relations_replace_dedup (db : DB) (cid : String)
    (rels : List MarketRelation) :
    ((write_relations_for_cluster db cid rels).relations.filter
        (fun row => decide (row.cluster_id = cid))
      = (dedupRelations rels).map (relRowOf cid))
    ∧ ((write_relations_for_cluster db cid rels).relations.filter
        (fun row => decide (row.cluster_id ≠ cid))
      = db.relations.filter (fun row => decide (row.cluster_id ≠ cid)))
    ∧ List.Sublist (dedupRelations rels) rels
    ∧ ((dedupRelations rels).map relKey).Nodup
    ∧ (∀ k, (dedupRelations rels).find? (fun r => decide (relKey r = k))
        = rels.find? (fun r => decide (relKey r = k)))
    ∧ ((write_relations_for_cluster db cid
          [⟨"qa", "qb", "ma", "mb", true, 1, "first"⟩,
           ⟨"qb", "qa", "mb", "ma", false, 1, "second"⟩,
           ⟨"qa", "qb", "ma", "mb", false, 1, "duplicate"⟩]).relations.filter
        (fun row => decide (row.cluster_id = cid))).length = 2 := by
  refine ⟨write_relations_filter_eq db cid rels, write_relations_filter_ne db cid rels,
    dedupAux_sublist rels [], (dedupAux_keys rels []).1,
    fun k => dedupAux_find rels [] k (List.not_mem_nil k), ?_⟩
  rw [write_relations_filter_eq]
  rfl

theorem run_ok_inv (db : DB) (cfg : RunConfig) (oracle : String → LLMOutcome)
    (write_fails : String → Bool) (st : RunState)
    (h : run_discover_relations db cfg oracle write_fails = .ok st) :
    st = run_result db cfg oracle write_fails := by
  unfold run_discover_relations at h
  by_cases hkey : cfg.openai_api_key = ""
  · rw [if_pos hkey] at h
    exact absurd h (by simp)
  · rw [if_neg hkey] at h
    by_cases hempty : (read_clusters db).isEmpty = true
    · rw [if_pos hempty] at h
      have hnil : db.clusters = [] := by
        have := List.isEmpty_iff.mp hempty
        unfold read_clusters at this
        exact List.map_eq_nil_iff.mp this
      rw [← Except.ok.inj h, run_result, build_tasks_of_no_clusters db cfg hnil]
      rfl
    · rw [if_neg hempty] at h
      exact (Except.ok.inj h).symm

theorem process_response_none (c : Cluster) (m_list : List Market) (maxRel : Nat) :
    (_process_one_cluster c m_list (.response none) maxRel).2 = some [] := by
  have hd : discover_relations_for_cluster m_list (.response none) maxRel = .ok [] := by
    unfold discover_relations_for_cluster
    by_cases h : m_list.length < 2
    · rw [if_pos h]
    · rw [if_neg h]
  unfold _process_one_cluster
  rw [hd]

/-! Sample markets, clusters, relation batches and configurations used to
instantiate the discovery-engine theorems on concrete runs. -/

def marketA : Market := ⟨"ma", "qa", some .yes, true⟩

def marketB : Market := ⟨"mb", "qb", some .no, true⟩

def marketC : Market := ⟨"mc", "qc", some .yes, true⟩

def marketD : Market := ⟨"md", "qd", none, true⟩

def relAB : MarketRelation := ⟨"qa", "qb", "ma", "mb", true, 1, "first"⟩

def relBA : MarketRelation := ⟨"qb", "qa", "mb", "ma", false, 1, "second"⟩

def relABdup : MarketRelation := ⟨"qa", "qb", "ma", "mb", false, 1, "duplicate"⟩

def cfgStd : RunConfig := ⟨10, 10, 60, true, false, false, "key"⟩

def cfgSkip : RunConfig := ⟨10, 10, 60, true, false, true, "key"⟩

def noWriteFail : String → Bool := fun _ => false

def dbOneCluster : DB :=
  ⟨[marketA, marketB], [⟨"g1", "politics", ""⟩], [("ma", "g1"), ("mb", "g1")], []⟩

def rowOld : RelRow := ⟨"g1", "mx", "my", "qx", "qy", true, 1, "old"⟩

def dbWithOld : DB :=
  ⟨[marketA, marketB], [⟨"g1", "politics", ""⟩], [("ma", "g1"), ("mb", "g1")], [rowOld]⟩

def dbTwoClusters : DB :=
  ⟨[marketA, marketB, marketC, marketD],
   [⟨"gA", "politics", ""⟩, ⟨"gB", "macro", ""⟩],
   [("ma", "gA"), ("mb", "gA"), ("mc", "gB"), ("md", "gB")], []⟩

def dbResume : DB :=
  ⟨[marketA, marketB, marketC, marketD],
   [⟨"g1", "politics", ""⟩, ⟨"g2", "macro", ""⟩],
   [("ma", "g1"), ("mb", "g1"), ("mc", "g2"), ("md", "g2")], [rowOld]⟩

def oracleDup : String → LLMOutcome := fun _ => .response (some [relAB, relBA, relABdup])

def oracleInvalid : String → LLMOutcome := fun _ => .response none

def oracleValidationFail : String → LLMOutcome :=
  fun cid => if cid = "gB" then .response none else .response (some [relAB])

def oracleCallRaises : String → LLMOutcome :=
  fun cid => if cid = "gB" then .callError else .response (some [relAB])

/-- Claim C2 fails on the code: the store write deduplicates (2 rows are
persisted for a batch of 3 with one duplicate pair) and returns no count,
while run_discover_relations records the pre-deduplication batch length, so
the result mapping carries 3 — not the 2 relationships actually written. -/
theorem C2_written_counts_counterexample :
    (run_result dbOneCluster cfgStd oracleDup noWriteFail).results = [("g1", 3)]
    ∧ ((run_result dbOneCluster cfgStd oracleDup noWriteFail).db.relations.filter
        (fun row => decide (row.cluster_id = "g1"))).length = 2
    ∧ run_discover_relations dbOneCluster cfgStd oracleDup noWriteFail
        = .ok (run_result dbOneCluster cfgStd oracleDup noWriteFail)
    ∧ (3 : Nat) ≠ 2 := by
  refine ⟨rfl, rfl, rfl, by decide⟩

/-- Claim C2 amended: the store write persists exactly the deduplicated count
for the group but returns no count; every entry of the discovery result
mapping pairs a succeeded cluster with the length of the relation list
discovery returned for it, before deduplication. -/
theorem C2_written_counts_amended (db : DB) (cfg : RunConfig)
    (oracle : String → LLMOutcome) (write_fails : String → Bool) (st : RunState)
    (h : run_discover_relations db cfg oracle write_fails = .ok st) :
    (∀ p ∈ st.results, ∃ t ∈ build_tasks db cfg, ∃ rels,
        (_process_one_cluster t.1 t.2 (oracle t.1.cluster_id)
            cfg.max_relations_per_cluster).2 = some rels
        ∧ p = (t.1.cluster_id, rels.length))
    ∧ ∀ (db2 : DB) (cid : String) (rels : List MarketRelation),
        ((write_relations_for_cluster db2 cid rels).relations.filter
            (fun row => decide (row.cluster_id = cid))).length
          = (dedupRelations rels).length := by
  constructor
  · intro p hp
    rw [run_ok_inv db cfg oracle write_fails st h] at hp
    rcases foldl_run_step_results_source oracle write_fails cfg.max_relations_per_cluster
      (build_tasks db cfg) ⟨db, [], []⟩ p hp with hp0 | ⟨t, ht, rels, hproc, _, hpeq⟩
    · exact absurd hp0 (List.not_mem_nil p)
    · exact ⟨t, ht, rels, hproc, hpeq⟩
  · intro db2 cid rels
    rw [write_relations_filter_eq, List.length_map]

theorem C2_written_counts_witness :
    ((write_relations_for_cluster dbOneCluster "g1" [relAB, relBA, relABdup]).relations.filter
        (fun row => decide (row.cluster_id = "g1"))).length
      = (dedupRelations [relAB, relBA, relABdup]).length :=
  (C2_written_counts_amended dbOneCluster cfgStd oracleDup noWriteFail
    (run_result dbOneCluster cfgStd oracleDup noWriteFail) rfl).2
    dbOneCluster "g1" [relAB, relBA, relABdup]

/-- Claim C3 fails on the code: a cluster whose LLM response is invalid JSON
(or fails MarketRelationList validation) yields an empty relation list, which
flows into the success path — the cluster lands in the result mapping with
count 0, the failed-clusters list stays empty, and the cluster's previously
persisted relationships are deleted by the replacing write. -/
theorem C3_invalid_response_counterexample :
    (run_result dbWithOld cfgStd oracleInvalid noWriteFail).results = [("g1", 0)]
    ∧ (run_result dbWithOld cfgStd oracleInvalid noWriteFail).failed_clusters = []
    ∧ (run_result dbWithOld cfgStd oracleInvalid noWriteFail).db.relations = []
    ∧ run_discover_relations dbWithOld cfgStd oracleInvalid noWriteFail
        = .ok (run_result dbWithOld cfgStd oracleInvalid noWriteFail)
    ∧ ¬("g1" ∈ (run_result dbWithOld cfgStd oracleInvalid noWriteFail).failed_clusters) := by
  refine ⟨rfl, rfl, rfl, rfl, by decide⟩

/-- Claim C3 amended: a processed cluster whose collaborator response is not
parseable structured data or fails validation is treated as a success with an
empty relationship list — it appears in the success mapping with count 0
(and, the write being a replacement, its stored relationships are deleted) —
rather than being recorded as a failure. -/
theorem C3_invalid_response_amended (db : DB) (cfg : RunConfig)
    (oracle : String → LLMOutcome) (write_fails : String → Bool) (st : RunState)
    (h : run_discover_relations db cfg oracle write_fails = .ok st) :
    ∀ t ∈ build_tasks db cfg, oracle t.1.cluster_id = .response none →
      write_fails t.1.cluster_id = false → (t.1.cluster_id, 0) ∈ st.results := by
  intro t ht horacle hw
  rw [run_ok_inv db cfg oracle write_fails st h]
  have hproc : (_process_one_cluster t.1 t.2 (oracle t.1.cluster_id)
      cfg.max_relations_per_cluster).2 = some [] := by
    rw [horacle]
    exact process_response_none t.1 t.2 cfg.max_relations_per_cluster
  exact foldl_run_step_mem_results oracle write_fails cfg.max_relations_per_cluster
    (build_tasks db cfg) ⟨db, [], []⟩ t ht [] hproc hw

theorem C3_invalid_response_witness :
    ("g1", 0) ∈ (run_result dbWithOld cfgStd oracleInvalid noWriteFail).results :=
  C3_invalid_response_amended dbWithOld cfgStd oracleInvalid noWriteFail
    (run_result dbWithOld cfgStd oracleInvalid noWriteFail) rfl
    ⟨⟨"g1", ["ma", "mb"], "politics", none⟩, [marketA, marketB]⟩ (by decide) rfl rfl

/-- Claim C4 fails on the code as stated: a validation failure does not put
the cluster in the failed list — it becomes a success with count 0 — as shown
by a batch where cluster gA succeeds and cluster gB's response fails
validation: gB sits in the result mapping and the failed list is empty. -/
theorem C4_failed_list_counterexample :
    (run_result dbTwoClusters cfgStd oracleValidationFail noWriteFail).results
        = [("gA", 1), ("gB", 0)]
    ∧ (run_result dbTwoClusters cfgStd oracleValidationFail noWriteFail).failed_clusters = []
    ∧ run_discover_relations dbTwoClusters cfgStd oracleValidationFail noWriteFail
        = .ok (run_result dbTwoClusters cfgStd oracleValidationFail noWriteFail)
    ∧ ¬("gB" ∈ (run_result dbTwoClusters cfgStd oracleValidationFail
        noWriteFail).failed_clusters) := by
  refine ⟨rfl, rfl, rfl, by decide⟩

/-- Claim C4 amended: with the collaborator credential present the engine
never raises; a cluster whose discovery errors (collaborator call raised) is
added to the failed list, as is a cluster whose store write fails; every other
processed cluster still gets its written count recorded in the returned
mapping.  (A validation failure, unlike the original claim, is a success with
count 0 — see the C3 theorems.) -/
theorem C4_failure_isolation_amended (db : DB) (cfg : RunConfig)
    (oracle : String → LLMOutcome) (write_fails : String → Bool)
    (hkey : ¬cfg.openai_api_key = "") :
    run_discover_relations db cfg oracle write_fails
      = .ok (run_result db cfg oracle write_fails)
    ∧ (∀ t ∈ build_tasks db cfg,
        (_process_one_cluster t.1 t.2 (oracle t.1.cluster_id)
            cfg.max_relations_per_cluster).2 = none →
        t.1.cluster_id ∈ (run_result db cfg oracle write_fails).failed_clusters)
    ∧ (∀ t ∈ build_tasks db cfg, ∀ rels,
        (_process_one_cluster t.1 t.2 (oracle t.1.cluster_id)
            cfg.max_relations_per_cluster).2 = some rels →
        write_fails t.1.cluster_id = true →
        t.1.cluster_id ∈ (run_result db cfg oracle write_fails).failed_clusters)
    ∧ (∀ t ∈ build_tasks db cfg, ∀ rels,
        (_process_one_cluster t.1 t.2 (oracle t.1.cluster_id)
            cfg.max_relations_per_cluster).2 = some rels →
        write_fails t.1.cluster_id = false →
        (t.1.cluster_id, rels.length) ∈ (run_result db cfg oracle write_fails).results) := by
  refine ⟨run_discover_relations_ok db cfg oracle write_fails hkey, ?_, ?_, ?_⟩
  · intro t ht hproc
    exact foldl_run_step_mem_failed oracle write_fails cfg.max_relations_per_cluster
      (build_tasks db cfg) ⟨db, [], []⟩ t ht (Or.inl hproc)
  · intro t ht rels hproc hw
    exact foldl_run_step_mem_failed oracle write_fails cfg.max_relations_per_cluster
      (build_tasks db cfg) ⟨db, [], []⟩ t ht (Or.inr hw)
  · intro t ht rels hproc hw
    exact foldl_run_step_mem_results oracle write_fails cfg.max_relations_per_cluster
      (build_tasks db cfg) ⟨db, [], []⟩ t ht rels hproc hw

theorem C4_failure_isolation_witness :
    ¬cfgStd.openai_api_key = ""
    ∧ run_discover_relations dbTwoClusters cfgStd oracleCallRaises noWriteFail
        = .ok (run_result dbTwoClusters cfgStd oracleCallRaises noWriteFail)
    ∧ ("gA", 1) ∈ (run_result dbTwoClusters cfgStd oracleCallRaises noWriteFail).results
    ∧ "gB" ∈ (run_result dbTwoClusters cfgStd oracleCallRaises
        noWriteFail).failed_clusters := by
  have h := C4_failure_isolation_amended dbTwoClusters cfgStd oracleCallRaises noWriteFail
    (by decide)
  refine ⟨by decide, h.1, ?_, ?_⟩
  · exact h.2.2.2 ⟨⟨"gA", ["ma", "mb"], "politics", none⟩, [marketA, marketB]⟩
      (by decide) [relAB] rfl rfl
  · exact h.2.1 ⟨⟨"gB", ["mc", "md"], "macro", none⟩, [marketC, marketD]⟩
      (by decide) rfl

/-- Claim C5: with skip-clusters-with-relations on, every cluster with at
least one persisted relationship is excluded from the dispatched tasks (the
set-difference against get_cluster_ids_with_relations), and the run leaves
that cluster's stored relationship rows exactly unchanged — in particular its
row count never increases, making a repeated discovery run idempotent for
already-populated clusters. -/
theorem C5_resume_idempotent (db : DB) (cfg : RunConfig) (oracle : String → LLMOutcome)
    (write_fails : String → Bool) (st : RunState)
    (h : run_discover_relations db cfg oracle write_fails = .ok st)
    (hskip : cfg.skip_clusters_with_relations = true) (g : String)
    (hg : db.relations.filter (fun row => decide (row.cluster_id = g)) ≠ []) :
    st.db.relations.filter (fun row => decide (row.cluster_id = g))
      = db.relations.filter (fun row => decide (row.cluster_id = g))
    ∧ ∀ t ∈ build_tasks db cfg, t.1.cluster_id ≠ g := by
  have hmem := mem_cluster_ids_of_filter_ne_nil db g hg
  have havoid := build_tasks_skip_avoids db cfg hskip g hmem
  refine ⟨?_, havoid⟩
  rw [run_ok_inv db cfg oracle write_fails st h]
  exact foldl_run_step_other_cluster oracle write_fails cfg.max_relations_per_cluster g
    (build_tasks db cfg) havoid ⟨db, [], []⟩

theorem C5_resume_idempotent_witness :
    cfgSkip.skip_clusters_with_relations = true
    ∧ dbResume.relations.filter (fun row => decide (row.cluster_id = "g1")) ≠ []
    ∧ (run_result dbResume cfgSkip oracleDup noWriteFail).db.relations.filter
        (fun row => decide (row.cluster_id = "g1"))
      = dbResume.relations.filter (fun row => decide (row.cluster_id = "g1")) := by
  refine ⟨rfl, by decide, ?_⟩
  exact (C5_resume_idempotent dbResume cfgSkip oracleDup noWriteFail
    (run_result dbResume cfgSkip oracleDup noWriteFail) rfl rfl "g1" (by decide)).1

/-- Claim C8: clear_derived_data deletes every relationship, every
group-assignment row and every group row while leaving the markets table
exactly as it was — in particular the market count is unchanged and the group
count afterwards is 0. -/
theorem C8_clear_derived_data_frame (db : DB) :
    (clear_derived_data db).markets = db.markets
    ∧ (clear_derived_data db).markets.length = db.markets.length
    ∧ (clear_derived_data db).clusters.length = 0
    ∧ (clear_derived_data db).relations = []
    ∧ (clear_derived_data db).market_clusters = [] :=
  ⟨rfl, rfl, rfl, rfl, rfl⟩

/-- Claim C10: write_clusters (spec name write_groups) with an empty list
returns before deleting or inserting anything, so the store is unchanged and
the delete-then-insert replacement of the group set does not occur; likewise
write_markets with an empty list leaves the store unchanged. -/
theorem C10_empty_writes_noop (db : DB) :
    write_clusters db [] = db ∧ write_markets db [] = db :=
  ⟨rfl, rfl⟩

/-! Helper lemmas about the evaluation fold. -/

theorem sumN_bumpBucket (correct : Bool) (key : String) (l : List (String × EvalBucket)) :
    sumN (bumpBucket correct key l) = sumN l + 1 := by
  induction l with
  | nil => simp [bumpBucket, sumN]
  | cons kb rest ih =>
    rcases kb with ⟨k, b⟩
    rw [bumpBucket]
    by_cases h : k = key
    · rw [if_pos h]
      simp [sumN]
      omega
    · rw [if_neg h]
      simp only [sumN, List.map_cons, List.sum_cons] at ih ⊢
      omega

theorem sumCorrect_bumpBucket (correct : Bool) (key : String)
    (l : List (String × EvalBucket)) :
    sumCorrect (bumpBucket correct key l)
      = sumCorrect l + (if correct then 1 else 0) := by
  induction l with
  | nil => simp [bumpBucket, sumCorrect]
  | cons kb rest ih =>
    rcases kb with ⟨k, b⟩
    rw [bumpBucket]
    by_cases h : k = key
    · rw [if_pos h]
      simp [sumCorrect]
      omega
    · rw [if_neg h]
      simp only [sumCorrect, List.map_cons, List.sum_cons] at ih ⊢
      omega

theorem eval_step_skip (min_conf : ℚ) (buckets : List ℚ)
    (outcome : String → Option ResolvedOutcome) (r : EvalResult)
    (p : String × MarketRelation)
    (h : evaluable min_conf outcome p = false) :
    eval_step min_conf buckets outcome r p = r := by
  unfold eval_step
  by_cases hc : p.2.confidence_score < min_conf
  · rw [if_pos hc]
  · rw [if_neg hc]
    unfold evaluable at h
    have hle : decide (min_conf ≤ p.2.confidence_score) = true :=
      decide_eq_true (not_lt.mp hc)
    rcases hi : outcome p.2.market_id_i with _ | o_i
    · rfl
    · rcases hj : outcome p.2.market_id_j with _ | o_j
      · rfl
      · rw [hi, hj, hle] at h
        simp at h

theorem eval_step_count (min_conf : ℚ) (buckets : List ℚ)
    (outcome : String → Option ResolvedOutcome) (r : EvalResult)
    (p : String × MarketRelation)
    (h : evaluable min_conf outcome p = true) :
    eval_step min_conf buckets outcome r p
      = { total_relations := r.total_relations
          total_evaluable := r.total_evaluable + 1
          total_correct := r.total_correct + (if relCorrect outcome p then 1 else 0)
          by_cluster := bumpBucket (relCorrect outcome p) p.1 r.by_cluster
          by_confidence_bucket := bumpBucket (relCorrect outcome p)
            (_confidence_bucket_label p.2.confidence_score buckets)
            r.by_confidence_bucket } := by
  unfold evaluable at h
  have hc : ¬(p.2.confidence_score < min_conf) := by
    rcases Bool.and_eq_true_iff.mp (Bool.and_eq_true_iff.mp h).1 with ⟨h1, _⟩
    exact not_lt.mpr (of_decide_eq_true h1)
  rcases hi : outcome p.2.market_id_i with _ | o_i
  · rw [hi] at h
    simp at h
  · rcases hj : outcome p.2.market_id_j with _ | o_j
    · rw [hi, hj] at h
      simp at h
    · unfold eval_step
      rw [if_neg hc, hi, hj]
      unfold relCorrect
      rw [hi, hj]

theorem eval_foldl_counts (min_conf : ℚ) (buckets : List ℚ)
    (outcome : String → Option ResolvedOutcome)
    (l : List (String × MarketRelation)) :
    ∀ r : EvalResult,
      (l.foldl (eval_step min_conf buckets outcome) r).total_relations = r.total_relations
      ∧ (l.foldl (eval_step min_conf buckets outcome) r).total_evaluable
          = r.total_evaluable + (l.filter (evaluable min_conf outcome)).length
      ∧ (l.foldl (eval_step min_conf buckets outcome) r).total_correct
          = r.total_correct + (l.filter (fun p =>
              evaluable min_conf outcome p && relCorrect outcome p)).length := by
  induction l with
  | nil => intro r; exact ⟨rfl, by simp, by simp⟩
  | cons p ps ih =>
    intro r
    rw [List.foldl_cons]
    rcases he : evaluable min_conf outcome p with _ | _
    · rw [eval_step_skip min_conf buckets outcome r p he]
      rcases ih r with ⟨h1, h2, h3⟩
      refine ⟨h1, ?_, ?_⟩
      · rw [h2, List.filter_cons, if_neg (by rw [he]; exact Bool.false_ne_true)]
      · rw [h3, List.filter_cons, if_neg (by simp [he])]
    · have htr : (eval_step min_conf buckets outcome r p).total_relations
          = r.total_relations := by
        rw [eval_step_count min_conf buckets outcome r p he]
      have hte : (eval_step min_conf buckets outcome r p).total_evaluable
          = r.total_evaluable + 1 := by
        rw [eval_step_count min_conf buckets outcome r p he]
      have htc : (eval_step min_conf buckets outcome r p).total_correct
          = r.total_correct + (if relCorrect outcome p then 1 else 0) := by
        rw [eval_step_count min_conf buckets outcome r p he]
      rcases ih (eval_step min_conf buckets outcome r p) with ⟨h1, h2, h3⟩
      refine ⟨by rw [h1, htr], ?_, ?_⟩
      · rw [h2, hte, List.filter_cons, if_pos (by rw [he])]
        simp only [List.length_cons]
        omega
      · rw [h3, htc, List.filter_cons]
        rcases hcor : relCorrect outcome p with _ | _
        · simp [he]
        · simp [he]
          omega

/-- Invariant of the evaluation fold: in every intermediate EvalResult the
bucket counts of each breakdown sum to the evaluable total and the bucket
correct-counts sum to the correct total. -/
def bucketSumsInvariant (r : EvalResult) : Prop :=
  sumN r.by_cluster = r.total_evaluable
  ∧ sumN r.by_confidence_bucket = r.total_evaluable
  ∧ sumCorrect r.by_cluster = r.total_correct
  ∧ sumCorrect r.by_confidence_bucket = r.total_correct

theorem eval_foldl_sums (min_conf : ℚ) (buckets : List ℚ)
    (outcome : String → Option ResolvedOutcome)
    (l : List (String × MarketRelation)) :
    ∀ r : EvalResult, bucketSumsInvariant r →
      bucketSumsInvariant (l.foldl (eval_step min_conf buckets outcome) r) := by
  induction l with
  | nil => intro r hr; exact hr
  | cons p ps ih =>
    intro r hr
    rw [List.foldl_cons]
    apply ih
    rcases he : evaluable min_conf outcome p with _ | _
    · rw [eval_step_skip min_conf buckets outcome r p he]
      exact hr
    · rw [eval_step_count min_conf buckets outcome r p he]
      rcases hr with ⟨h1, h2, h3, h4⟩
      refine ⟨?_, ?_, ?_, ?_⟩
      · show sumN (bumpBucket (relCorrect outcome p) p.1 r.by_cluster)
          = r.total_evaluable + 1
        rw [sumN_bumpBucket, h1]
      · show sumN (bumpBucket (relCorrect outcome p)
            (_confidence_bucket_label p.2.confidence_score buckets) r.by_confidence_bucket)
          = r.total_evaluable + 1
        rw [sumN_bumpBucket, h2]
      · show sumCorrect (bumpBucket (relCorrect outcome p) p.1 r.by_cluster)
          = r.total_correct + (if relCorrect outcome p then 1 else 0)
        rw [sumCorrect_bumpBucket, h3]
      · show sumCorrect (bumpBucket (relCorrect outcome p)
            (_confidence_bucket_label p.2.confidence_score buckets) r.by_confidence_bucket)
          = r.total_correct + (if relCorrect outcome p then 1 else 0)
        rw [sumCorrect_bumpBucket, h4]

/-- Claim C6: run_evaluate_relations counts as evaluable exactly the stored
relationships whose confidence score is at least the configured minimum and
whose two referenced markets both have a resolved outcome; such a
relationship is counted correct exactly when its same-outcome flag equals
(outcome_i = outcome_j); and the reported accuracy is total_correct /
total_evaluable, defined as 0 when total_evaluable is 0. -/
theorem C6_evaluable_and_accuracy (db : DB) (min_conf : ℚ) (bucketsCfg : List ℚ) :
    (run_evaluate_relations db min_conf bucketsCfg).total_relations
        = (read_relations db).length
    ∧ (run_evaluate_relations db min_conf bucketsCfg).total_evaluable
        = ((read_relations db).filter
            (evaluable min_conf (outcome_by_id (read_markets db)))).length
    ∧ (run_evaluate_relations db min_conf bucketsCfg).total_correct
        = ((read_relations db).filter (fun p =>
            evaluable min_conf (outcome_by_id (read_markets db)) p
              && relCorrect (outcome_by_id (read_markets db)) p)).length
    ∧ (run_evaluate_relations db min_conf bucketsCfg).accuracy
        = (if (run_evaluate_relations db min_conf bucketsCfg).total_evaluable = 0 then 0
           else ((run_evaluate_relations db min_conf bucketsCfg).total_correct : ℚ)
             / ((run_evaluate_relations db min_conf bucketsCfg).total_evaluable : ℚ)) := by
  have h := eval_foldl_counts min_conf
    (if bucketsCfg.isEmpty then [(0.5 : ℚ), 0.7, 0.9] else bucketsCfg)
    (outcome_by_id (read_markets db)) (read_relations db)
    { total_relations := (read_relations db).length
      total_evaluable := 0
      total_correct := 0
      by_cluster := []
      by_confidence_bucket := [] }
  rcases h with ⟨h1, h2, h3⟩
  dsimp only at h1 h2 h3
  rw [Nat.zero_add] at h2 h3
  exact ⟨h1, h2, h3, rfl⟩

/-- Claim C9: in every EvalResult produced by run_evaluate_relations, both
breakdowns partition the evaluable relationships — the bucket counts of
by_cluster and of by_confidence_bucket each sum to total_evaluable, and the
bucket correct-counts each sum to total_correct. -/
theorem C9_bucket_partitions (db : DB) (min_conf : ℚ) (bucketsCfg : List ℚ) :
    sumN (run_evaluate_relations db min_conf bucketsCfg).by_cluster
        = (run_evaluate_relations db min_conf bucketsCfg).total_evaluable
    ∧ sumN (run_evaluate_relations db min_conf bucketsCfg).by_confidence_bucket
        = (run_evaluate_relations db min_conf bucketsCfg).total_evaluable
    ∧ sumCorrect (run_evaluate_relations db min_conf bucketsCfg).by_cluster
        = (run_evaluate_relations db min_conf bucketsCfg).total_correct
    ∧ sumCorrect (run_evaluate_relations db min_conf bucketsCfg).by_confidence_bucket
        = (run_evaluate_relations db min_conf bucketsCfg).total_correct :=
  eval_foldl_sums min_conf
    (if bucketsCfg.isEmpty then [(0.5 : ℚ), 0.7, 0.9] else bucketsCfg)
    (outcome_by_id (read_markets db)) (read_relations db)
    { total_relations := (read_relations db).length
      total_evaluable := 0
      total_correct := 0
      by_cluster := []
      by_confidence_bucket := [] }
    ⟨rfl, rfl, rfl, rfl⟩

/-! Helper lemmas about confidence-bucket labelling. -/

theorem pyFloatStr_zero : pyFloatStr 0 = "0.0" := by
  unfold pyFloatStr
  rw [show ⌊(0 : ℚ)⌋ = 0 by norm_num]
  rw [show ((0 : ℚ) - ((0 : ℤ) : ℚ)) = 0 by norm_num]
  rw [decimalDigits]
  rfl

theorem pyFloatStr_half : pyFloatStr 0.5 = "0.5" := by
  unfold pyFloatStr
  rw [show ⌊(0.5 : ℚ)⌋ = 0 by norm_num]
  rw [show ((0.5 : ℚ) - ((0 : ℤ) : ℚ)) = 0.5 by norm_num]
  rw [decimalDigits, if_neg (by norm_num)]
  rw [show ⌊(0.5 : ℚ) * 10⌋ = 5 by norm_num]
  rw [show ((0.5 : ℚ) * 10 - ((5 : ℤ) : ℚ)) = 0 by norm_num]
  rw [decimalDigits]
  rfl

theorem pyFloatStr_seven_tenths : pyFloatStr 0.7 = "0.7" := by
  unfold pyFloatStr
  rw [show ⌊(0.7 : ℚ)⌋ = 0 by norm_num]
  rw [show ((0.7 : ℚ) - ((0 : ℤ) : ℚ)) = 0.7 by norm_num]
  rw [decimalDigits, if_neg (by norm_num)]
  rw [show ⌊(0.7 : ℚ) * 10⌋ = 7 by norm_num]
  rw [show ((0.7 : ℚ) * 10 - ((7 : ℤ) : ℚ)) = 0 by norm_num]
  rw [decimalDigits]
  rfl

theorem pyFloatStr_nine_tenths : pyFloatStr 0.9 = "0.9" := by
  unfold pyFloatStr
  rw [show ⌊(0.9 : ℚ)⌋ = 0 by norm_num]
  rw [show ((0.9 : ℚ) - ((0 : ℤ) : ℚ)) = 0.9 by norm_num]
  rw [decimalDigits, if_neg (by norm_num)]
  rw [show ⌊(0.9 : ℚ) * 10⌋ = 9 by norm_num]
  rw [show ((0.9 : ℚ) * 10 - ((9 : ℤ) : ℚ)) = 0 by norm_num]
  rw [decimalDigits]
  rfl

theorem bucketLabelLoop_first (s : ℚ) : ∀ (B : List ℚ) (low : ℚ) (i : Nat),
    i < B.length → s < B.getD i 0 → (∀ j, j < i → B.getD j 0 ≤ s) →
    bucketLabelLoop s low B
      = pyFloatStr (if i = 0 then low else B.getD (i - 1) 0) ++ "-"
          ++ pyFloatStr (B.getD i 0) := by
  intro B
  induction B with
  | nil => intro low i hi _ _; simp at hi
  | cons b rest ih =>
    intro low i hi hlt hle
    rcases i with _ | k
    · have hsb : s < b := by simpa using hlt
      rcases rest with _ | ⟨b2, rest2⟩
      · rw [bucketLabelLoop, if_pos hsb]
        simp
      · rw [bucketLabelLoop, if_pos hsb]
        simp
    · have hb : b ≤ s := by
        have := hle 0 (Nat.succ_pos k)
        simpa using this
      rcases rest with _ | ⟨b2, rest2⟩
      · simp at hi
      · rw [bucketLabelLoop, if_neg (not_lt.mpr hb)]
        have hrec := ih b k (by simpa using hi) (by simpa using hlt)
          (fun j hj => by
            have := hle (j + 1) (Nat.succ_lt_succ hj)
            simpa using this)
        rw [hrec]
        rcases k with _ | m
        · simp
        · simp

theorem bucketLabelLoop_ge (s : ℚ) : ∀ (B : List ℚ) (low bn : ℚ),
    B.getLast? = some bn → (∀ b ∈ B, b ≤ s) →
    bucketLabelLoop s low B = ">=" ++ pyFloatStr bn := by
  intro B
  induction B with
  | nil => intro low bn h _; simp at h
  | cons b rest ih =>
    intro low bn hlast hle
    have hb : b ≤ s := hle b (List.mem_cons_self _ _)
    rcases rest with _ | ⟨b2, rest2⟩
    · have hbn : bn = b := by
        simp at hlast
        exact hlast.symm
      subst hbn
      rw [bucketLabelLoop, if_neg (not_lt.mpr hb)]
    · rw [bucketLabelLoop, if_neg (not_lt.mpr hb)]
      refine ih b bn ?_ ?_
      · simpa using hlast
      · intro x hx
        exact hle x (List.mem_cons_of_mem _ hx)

theorem default_boundaries_sorted :
    List.Sorted (fun a b => a ≤ b) [(0.5 : ℚ), 0.7, 0.9] := by
  simp [List.sorted_cons]
  norm_num

/-- Claim C7 fails on the code in one detail: the lower bound of the first
range label is the float 0.0, which Python renders "0.0", so a score below
the first default boundary is labelled "0.0-0.5" and not "0-0.5". -/
theorem C7_bucket_label_counterexample :
    _confidence_bucket_label 0.3 [(0.5 : ℚ), 0.7, 0.9] = "0.0-0.5"
    ∧ ¬("0.0-0.5" = "0-0.5") := by
  constructor
  · unfold _confidence_bucket_label
    rw [if_neg (by decide), List.mergeSort_eq_self default_boundaries_sorted]
    rw [bucketLabelLoop, if_pos (by norm_num)]
    rw [pyFloatStr_zero, pyFloatStr_half]
    rfl
  · decide

/-- Claim C7 amended: for an ascending boundary list the label of a score s is
"prev-bi" — prev and bi rendered as Python floats, prev being 0.0 before the
first boundary — where bi is the first boundary with s < bi, and ">=bn" when
s is at least every boundary; an empty boundary list gives the single bucket
"all"; an empty configured boundary list falls back to the default boundaries
[0.5, 0.7, 0.9]; with the default boundaries, score 0.6 is labelled "0.5-0.7"
and score 0.95 is labelled ">=0.9" (and score 0.3 is labelled "0.0-0.5", not
"0-0.5"). -/
theorem C7_bucket_label_amended (s : ℚ) (B : List ℚ)
    (hB : List.Sorted (fun a b => a ≤ b) B) :
    _confidence_bucket_label s [] = "all"
    ∧ (∀ i, i < B.length → s < B.getD i 0 → (∀ j, j < i → B.getD j 0 ≤ s) →
        _confidence_bucket_label s B
          = pyFloatStr (if i = 0 then 0 else B.getD (i - 1) 0) ++ "-"
              ++ pyFloatStr (B.getD i 0))
    ∧ (∀ bn, B.getLast? = some bn → (∀ b ∈ B, b ≤ s) →
        _confidence_bucket_label s B = ">=" ++ pyFloatStr bn)
    ∧ (∀ (db : DB) (m : ℚ),
        run_evaluate_relations db m [] = run_evaluate_relations db m [(0.5 : ℚ), 0.7, 0.9])
    ∧ _confidence_bucket_label 0.6 [(0.5 : ℚ), 0.7, 0.9] = "0.5-0.7"
    ∧ _confidence_bucket_label 0.95 [(0.5 : ℚ), 0.7, 0.9] = ">=0.9" := by
  refine ⟨rfl, ?_, ?_, fun db m => rfl, ?_, ?_⟩
  · intro i hi hlt hle
    have hBne : ¬(B.isEmpty = true) := by
      rcases B with _ | ⟨b, rest⟩
      · simp at hi
      · simp
    unfold _confidence_bucket_label
    rw [if_neg hBne, List.mergeSort_eq_self hB]
    exact bucketLabelLoop_first s B 0 i hi hlt hle
  · intro bn hlast hle
    have hBne : ¬(B.isEmpty = true) := by
      rcases B with _ | ⟨b, rest⟩
      · simp at hlast
      · simp
    unfold _confidence_bucket_label
    rw [if_neg hBne, List.mergeSort_eq_self hB]
    exact bucketLabelLoop_ge s B 0 bn hlast hle
  · unfold _confidence_bucket_label
    rw [if_neg (by decide), List.mergeSort_eq_self default_boundaries_sorted]
    rw [bucketLabelLoop, if_neg (by norm_num)]
    rw [bucketLabelLoop, if_pos (by norm_num)]
    rw [pyFloatStr_half, pyFloatStr_seven_tenths]
    rfl
  · unfold _confidence_bucket_label
    rw [if_neg (by decide), List.mergeSort_eq_self default_boundaries_sorted]
    rw [bucketLabelLoop, if_neg (by norm_num)]
    rw [bucketLabelLoop, if_neg (by norm_num)]
    rw [bucketLabelLoop, if_neg (by norm_num)]
    rw [pyFloatStr_nine_tenths]
    rfl

theorem C7_bucket_label_witness :
    _confidence_bucket_label 0.6 [(0.5 : ℚ), 0.7, 0.9] = "0.5-0.7" :=
  (C7_bucket_label_amended 0.6 [(0.5 : ℚ), 0.7, 0.9] default_boundaries_sorted).2.2.2.2.1

end VeriBond
